import Mathlib

/-!
# Verification of the duckhts parallel scan engine

Shallow embedding of the scan-coordination, schema-validation and record
materialization logic of the duckhts readers
(`src/bam_reader.c`, `r/Rduckhts/inst/duckhts_extension/bcf_reader.c`,
`r/Rduckhts/inst/duckhts_extension/include/vcf_types.h`,
`r/duckhts/inst/duckhts_extension/vep_parser.c`), with theorems about the
properties its specification states.

External htslib calls (file open, header read, index load, iterator
creation, record read) are modelled by boolean/functional oracles supplied
as parameters; the control flow around them is translated statement by
statement from the C sources.
-/

namespace Duckhts

/- ================================================================
   Global work coordinator: the atomic claim of the next contig.

   C source (`bam_reader.c` lines 479-506 and `bcf_reader.c` lines
   1054-1090): the shared counter `global->current_contig` is read and
   incremented by `__sync_fetch_and_add`; the pre-increment value is the
   claimed index if it is still `< n_contigs`.

   `claimStep n c` is one atomic fetch-and-add on counter value `c`,
   tested against the contig count `n`: it returns the claimed index (or
   `none` for exhaustion) together with the post-increment counter.
   ================================================================ -/

def claimStep (n c : ℕ) : Option ℕ × ℕ :=
  (if c < n then some c else none, c + 1)

/-- The results of `k` successive atomic claim operations starting from
counter value `c`.  Because the C counter is touched only through the
atomic fetch-and-add, every concurrent execution of claim calls
linearizes to such a sequence. -/
def runClaims (n c : ℕ) : ℕ → List (Option ℕ)
  | 0 => []
  | k + 1 => (claimStep n c).1 :: runClaims n (claimStep n c).2 k

/-- Results `claimResults n k` of `k` claim calls on a fresh
coordinator (counter starts at 0, as set in `bam_read_global_init` /
`bcf_read_global_init`). -/
def claimResults (n k : ℕ) : List (Option ℕ) := runClaims n 0 k

lemma runClaims_eq (n : ℕ) : ∀ (k c : ℕ),
    runClaims n c k = (List.range k).map (fun j => if c + j < n then some (c + j) else none) := by
  intro k
  induction k with
  | zero => intro c; simp [runClaims]
  | succ m ih =>
    intro c
    rw [List.range_succ_eq_map]
    simp only [runClaims, claimStep, ih (c + 1), List.map_cons, List.map_map]
    rw [List.cons_eq_cons]
    refine ⟨by simp, List.map_congr_left ?_⟩
    intro j hj
    simp only [Function.comp_apply, Nat.succ_eq_add_one]
    have hadd : c + 1 + j = c + (j + 1) := by ring
    rw [hadd]

lemma claimResults_eq (n k : ℕ) :
    claimResults n k = (List.range k).map (fun j => if j < n then some j else none) := by
  simp [claimResults, runClaims_eq]

lemma filterMap_range_if (n : ℕ) : ∀ (k : ℕ),
    ((List.range k).map (fun j => if j < n then some j else none)).filterMap id
      = List.range (min k n) := by
  intro k
  induction k with
  | zero => simp
  | succ m ih =>
    rw [List.range_succ, List.map_append, List.filterMap_append, ih]
    by_cases h : m < n
    · have h1 : min (m + 1) n = m + 1 := by omega
      have h2 : min m n = m := by omega
      simp [h, h1, h2, List.range_succ]
    · have h1 : min (m + 1) n = n := by omega
      have h2 : min m n = n := by omega
      simp [h, h1, h2]

/- ================================================================
   Recursive contig claim with empty-contig skipping.

   `mkItr i = true` models success of iterator creation for contig `i`
   (`sam_itr_queryi` / `bcf_itr_querys` / `tbx_itr_querys` returning
   non-NULL).  On failure the C function calls itself with the already
   incremented shared counter.  The guard mirrors
   `if (!local->is_parallel || !global || global->n_contigs == 0)`.
   Result: the claimed contig (`none` when exhausted) and the new value
   of the shared counter.
   ================================================================ -/

def claim_next_contig (is_parallel : Bool) (mkItr : ℕ → Bool) (n c : ℕ) :
    Option ℕ × ℕ :=
  if is_parallel = false ∨ n = 0 then (none, c)
  else if h : c < n then
    (if mkItr c then (some c, c + 1) else claim_next_contig is_parallel mkItr n (c + 1))
  else (none, c + 1)
  termination_by n - c

lemma claim_next_contig_counter_gt (mkItr : ℕ → Bool) (n : ℕ) (hn : 0 < n) :
    ∀ c, c < (claim_next_contig true mkItr n c).2 := by
  suffices h : ∀ k c, n - c ≤ k → c < (claim_next_contig true mkItr n c).2 by
    intro c; exact h (n - c) c le_rfl
  intro k
  induction k with
  | zero =>
    intro c hk
    rw [claim_next_contig]
    have hc : ¬ c < n := by omega
    simp [hn.ne', hc]
  | succ m ih =>
    intro c hk
    rw [claim_next_contig]
    by_cases hc : c < n
    · simp only [hn.ne', or_false, hc, dif_pos, Bool.true_eq_false, false_or, if_neg,
        not_false_iff]
      by_cases hi : mkItr c
      · simp [hi]
      · have hrec := ih (c + 1) (by omega)
        simp only [hi, Bool.false_eq_true, if_false]
        omega
    · simp [hn.ne', hc]

lemma claim_next_contig_spec (mkItr : ℕ → Bool) (n : ℕ) (hn : 0 < n) :
    ∀ c, (claim_next_contig true mkItr n c).1
      = (List.range' c (n - c)).find? (fun i => mkItr i) := by
  suffices h : ∀ k c, n - c ≤ k →
      (claim_next_contig true mkItr n c).1
        = (List.range' c (n - c)).find? (fun i => mkItr i) by
    intro c; exact h (n - c) c le_rfl
  intro k
  induction k with
  | zero =>
    intro c hk
    rw [claim_next_contig]
    have hc : ¬ c < n := by omega
    have hz : n - c = 0 := by omega
    simp [hn.ne', hc, hz]
  | succ m ih =>
    intro c hk
    rw [claim_next_contig]
    by_cases hc : c < n
    · have hrange : List.range' c (n - c) = c :: List.range' (c + 1) (n - (c + 1)) := by
        have hm : n - c = (n - (c + 1)) + 1 := by omega
        rw [hm, List.range'_succ]
      simp only [hn.ne', or_false, hc, dif_pos, hrange, List.find?_cons]
      by_cases hi : mkItr c
      · simp [hi]
      · have hif : mkItr c = false := by simpa using hi
        simp only [hif, Bool.false_eq_true, if_false]
        exact ih (c + 1) (by omega)
    · have hz : n - c = 0 := by omega
      simp [hn.ne', hc, hz]

/- ================================================================
   Rows produced by one parallel worker running its claim loop.

   In `bam_read_function` / `bcf_read_function`, a parallel worker reads
   every record of its claimed contig, and on end-of-iterator claims the
   next contig via `claim_next_contig` until that returns 0, at which
   point the worker marks itself done.  `contigRecords i` is the number
   of records the contig-`i` iterator yields.
   ================================================================ -/

def parallel_worker_rows (mkItr : ℕ → Bool) (contigRecords : ℕ → ℕ) (n c : ℕ) : ℕ :=
  if hn : n = 0 then 0
  else
    match h : claim_next_contig true mkItr n c with
    | (none, _) => 0
    | (some i, c') => contigRecords i + parallel_worker_rows mkItr contigRecords n c'
  termination_by n + 1 - c
  decreasing_by
    have h2 : c < c' := by
      have := claim_next_contig_counter_gt mkItr n (by omega) c
      rw [h] at this
      simpa using this
    have hfind : (List.range' c (n - c)).find? (fun i => mkItr i) = some i := by
      rw [← claim_next_contig_spec mkItr n (by omega) c, h]
    have hmem := List.mem_of_find?_eq_some hfind
    have hbounds := List.mem_range'_1.mp hmem
    omega

lemma claim_next_contig_counter_le (mkItr : ℕ → Bool) (n : ℕ) (hn : 0 < n) :
    ∀ c, (claim_next_contig true mkItr n c).2 ≤ max n c + 1 := by
  suffices h : ∀ k c, n - c ≤ k → (claim_next_contig true mkItr n c).2 ≤ max n c + 1 by
    intro c; exact h (n - c) c le_rfl
  intro k
  induction k with
  | zero =>
    intro c hk
    rw [claim_next_contig]
    have hc : ¬ c < n := by omega
    simp only [hn.ne', or_false, hc, dif_neg, not_false_iff, Bool.true_eq_false, false_or,
      if_neg]
    omega
  | succ m ih =>
    intro c hk
    rw [claim_next_contig]
    by_cases hc : c < n
    · simp only [hn.ne', or_false, hc, dif_pos, Bool.true_eq_false, false_or, if_neg,
        not_false_iff]
      by_cases hi : mkItr c
      · simp only [hi, if_true]
        omega
      · have hrec := ih (c + 1) (by omega)
        simp only [hi, Bool.false_eq_true, if_false]
        omega
    · simp only [hn.ne', or_false, hc, dif_neg, not_false_iff, Bool.true_eq_false, false_or,
        if_neg]
      omega

/-- C1: the coordinator's claim-next-contig operation — an atomic
fetch-and-increment on the shared counter, tested against the contig
count — hands each contig index in `[0, n)` to exactly one caller
exactly once: linearizing any `k` concurrent claim calls, the successful
results are exactly `0, 1, …, min k n - 1` in order (no index skipped or
duplicated), and every call past the `n`-th returns the done result. -/
theorem claim_contig_exactly_once (n k : ℕ) :
    (claimResults n k).filterMap id = List.range (min k n) ∧
    (∀ j, n ≤ j → j < k → (claimResults n k).get? j = some none) := by
  constructor
  · rw [claimResults_eq, filterMap_range_if]
  · intro j hnj hjk
    rw [claimResults_eq]
    rw [List.get?_eq_getElem?, List.getElem?_map, List.getElem?_range hjk]
    simp only [Option.map_some']
    rw [if_neg (by omega)]

/-- C2: `claim_next_contig` skips contigs for which no iterator can be
created (e.g. contigs with zero overlapping records): it returns the
first claimable contig at or after the current counter, the shared
counter strictly increases on every call, and it stays bounded by the
contig count (plus the final overshooting increment) — so the recursive
claiming process terminates even when all remaining contigs are empty. -/
theorem claim_next_contig_skips_empty (mkItr : ℕ → Bool) (n c : ℕ) (hn : 0 < n) :
    (claim_next_contig true mkItr n c).1
        = (List.range' c (n - c)).find? (fun i => mkItr i) ∧
    c < (claim_next_contig true mkItr n c).2 ∧
    (claim_next_contig true mkItr n c).2 ≤ max n c + 1 :=
  ⟨claim_next_contig_spec mkItr n hn c,
   claim_next_contig_counter_gt mkItr n hn c,
   claim_next_contig_counter_le mkItr n hn c⟩

/-- Witness for `claim_next_contig_skips_empty`: three contigs, the first
two empty — the claim skips to contig 2 and the counter advances from 0
to 3. -/
theorem claim_next_contig_skips_empty_witness :
    0 < 3 ∧
    ((claim_next_contig true (fun i => decide (2 ≤ i)) 3 0).1
        = (List.range' 0 (3 - 0)).find? (fun i => decide (2 ≤ i)) ∧
     0 < (claim_next_contig true (fun i => decide (2 ≤ i)) 3 0).2 ∧
     (claim_next_contig true (fun i => decide (2 ≤ i)) 3 0).2 ≤ max 3 0 + 1) :=
  ⟨by decide, claim_next_contig_skips_empty (fun i => decide (2 ≤ i)) 3 0 (by decide)⟩

/- ================================================================
   Region-string parsing.

   `parse_regions` (`bam_reader.c` lines 168-195) splits the user's
   region parameter on `,` with `strtok`, which skips empty tokens.
   `parse_regions_duckdb` (`bcf_reader.c` lines 282-325) additionally
   trims spaces/tabs from each token and drops tokens that become empty.
   `none` models a missing (or NULL-valued) named parameter.
   ================================================================ -/

def splitCommaChars : List Char → List (List Char)
  | [] => [[]]
  | ch :: rest =>
    if ch = ',' then [] :: splitCommaChars rest
    else
      match splitCommaChars rest with
      | t :: ts => (ch :: t) :: ts
      | [] => [[ch]]

def parse_regions (region : Option String) : List String :=
  match region with
  | none => []
  | some s => ((splitCommaChars s.data).filter (fun t => !t.isEmpty)).map
      (fun t => String.mk t)

def c_isSpTab (ch : Char) : Bool := ch == ' ' || ch == '\t'

def trimSpTab (t : List Char) : List Char :=
  ((t.dropWhile c_isSpTab).reverse.dropWhile c_isSpTab).reverse

def parse_regions_duckdb (region : Option String) : List String :=
  match region with
  | none => []
  | some s =>
    ((((splitCommaChars s.data).filter (fun t => !t.isEmpty)).map trimSpTab).filter
        (fun t => !t.isEmpty)).map (fun t => String.mk t)

/- ================================================================
   Bind data and global init.

   `bam_read_bind` stores file metadata (index presence, contig count
   from the header, parsed regions); `bam_read_global_init`
   (`bam_reader.c` lines 353-378) and `bcf_read_global_init`
   (`bcf_reader.c` lines 775-804) decide the degree of parallelism:
   index present, more than one contig and no parsed region enables the
   contig-claim scan with `min(n_contigs, 16)` threads, otherwise one
   thread.
   ================================================================ -/

structure BamBindData where
  has_index : Bool
  n_contigs : ℕ
  region : Option String
  reference : Option String

structure GlobalInitData where
  n_contigs : ℕ
  has_region : Bool
  max_threads : ℕ

def bam_read_global_init (b : BamBindData) : GlobalInitData :=
  let n_regions := (parse_regions b.region).length
  let has_region := 0 < n_regions
  if b.has_index = true ∧ 1 < b.n_contigs ∧ ¬ has_region then
    { n_contigs := b.n_contigs, has_region := has_region,
      max_threads := min b.n_contigs 16 }
  else
    { n_contigs := 0, has_region := has_region, max_threads := 1 }

structure BcfBindData where
  has_index : Bool
  n_contigs : ℕ
  region : Option String

def bcf_read_global_init (b : BcfBindData) : GlobalInitData :=
  let n_regions := (parse_regions_duckdb b.region).length
  let has_region := 0 < n_regions
  if b.has_index = true ∧ 1 < b.n_contigs ∧ ¬ has_region then
    { n_contigs := b.n_contigs, has_region := has_region,
      max_threads := min b.n_contigs 16 }
  else
    { n_contigs := 0, has_region := has_region, max_threads := 1 }

lemma parse_regions_nil_iff (region : Option String) :
    (parse_regions region).length = 0 ↔ parse_regions region = [] := by
  simp [List.length_eq_zero]

/-- C3 (amended): global init enables the multi-worker scan iff the file
has an index, declares more than one contig, and the region parameter
parses to zero regions (it is absent, empty, or contains no tokens);
when enabled it advertises `min(n_contigs, 16)` workers and otherwise
exactly one.  This holds for both the alignment and the variant reader. -/
theorem global_init_parallel_decision (b : BamBindData) (v : BcfBindData) :
    ((bam_read_global_init b).max_threads =
      if b.has_index = true ∧ 1 < b.n_contigs ∧ (parse_regions b.region).length = 0
      then min b.n_contigs 16 else 1) ∧
    (1 < (bam_read_global_init b).max_threads ↔
      (b.has_index = true ∧ 1 < b.n_contigs ∧ (parse_regions b.region).length = 0)) ∧
    ((bcf_read_global_init v).max_threads =
      if v.has_index = true ∧ 1 < v.n_contigs ∧ (parse_regions_duckdb v.region).length = 0
      then min v.n_contigs 16 else 1) ∧
    (1 < (bcf_read_global_init v).max_threads ↔
      (v.has_index = true ∧ 1 < v.n_contigs ∧ (parse_regions_duckdb v.region).length = 0)) := by
  refine ⟨?_, ?_, ?_, ?_⟩
  · simp only [bam_read_global_init]
    split_ifs with h1 h2 h3
    · rfl
    · exact absurd ⟨h1.1, h1.2.1, by have := h1.2.2; omega⟩ h2
    · exact absurd ⟨h3.1, h3.2.1, by have := h3.2.2; omega⟩ h1
    · rfl
  · simp only [bam_read_global_init]
    split_ifs with h1
    · exact iff_of_true (by show 1 < min b.n_contigs 16; have := h1.2.1; omega)
        ⟨h1.1, h1.2.1, by have := h1.2.2; omega⟩
    · exact iff_of_false (by show ¬ (1 < (1 : ℕ)); omega)
        (fun hx => h1 ⟨hx.1, hx.2.1, by have := hx.2.2; omega⟩)
  · simp only [bcf_read_global_init]
    split_ifs with h1 h2 h3
    · rfl
    · exact absurd ⟨h1.1, h1.2.1, by have := h1.2.2; omega⟩ h2
    · exact absurd ⟨h3.1, h3.2.1, by have := h3.2.2; omega⟩ h1
    · rfl
  · simp only [bcf_read_global_init]
    split_ifs with h1
    · exact iff_of_true (by show 1 < min v.n_contigs 16; have := h1.2.1; omega)
        ⟨h1.1, h1.2.1, by have := h1.2.2; omega⟩
    · exact iff_of_false (by show ¬ (1 < (1 : ℕ)); omega)
        (fun hx => h1 ⟨hx.1, hx.2.1, by have := hx.2.2; omega⟩)

/-- C3 counterexample: with an index, two contigs, and the caller
supplying the region parameter with value `""` (which parses to zero
regions), global init still advertises 2 workers — so "enabled iff the
caller supplied no region parameter" is false as stated: the parameter
was supplied, yet the multi-worker scan is enabled. -/
theorem global_init_region_param_counterexample :
    (bam_read_global_init ⟨true, 2, some "", none⟩).max_threads = 2 ∧
    (some "" : Option String) ≠ none ∧
    1 < (bam_read_global_init ⟨true, 2, some "", none⟩).max_threads := by
  refine ⟨?_, by simp, ?_⟩ <;> decide

/- ================================================================
   Per-thread local init.

   `bam_read_local_init` (`bam_reader.c` lines 384-472) and
   `bcf_read_local_init` (`bcf_reader.c` lines 810-919).  The outcomes
   of the external htslib calls are supplied as oracle fields; the
   branching around them follows the C statement by statement.  The
   cursor records the fields of the C local-init struct that drive the
   scan loop.
   ================================================================ -/

structure BamLocalEnv where
  open_ok : Bool        -- sam_open succeeds
  set_ref_ok : Bool     -- hts_set_opt(CRAM_OPT_REFERENCE) succeeds
  hdr_ok : Bool         -- sam_hdr_read succeeds
  index_opens : Bool    -- sam_index_load succeeds
  regarray_ok : Bool    -- sam_itr_regarray returns non-NULL

structure BamCursor where
  is_parallel : Bool
  needs_next_contig : Bool
  has_idx : Bool
  has_region_itr : Bool
  done : Bool
deriving DecidableEq, Repr

def bam_read_local_init (b : BamBindData) (env : BamLocalEnv) :
    Except String BamCursor :=
  let n_regions := (parse_regions b.region).length
  let is_parallel := b.has_index && decide (1 < b.n_contigs) && decide (n_regions = 0)
  if env.open_ok = false then .error "Failed to open SAM/BAM/CRAM file"
  else if b.reference.isSome && !env.set_ref_ok then
    .error "Failed to set CRAM reference"
  else if env.hdr_ok = false then .error "Failed to read SAM/BAM/CRAM header"
  else
    let st0 : BamCursor :=
      { is_parallel := is_parallel, needs_next_contig := is_parallel,
        has_idx := false, has_region_itr := false, done := false }
    if is_parallel || decide (0 < n_regions) then
      if env.index_opens then
        let st1 := { st0 with has_idx := true }
        if !is_parallel && decide (0 < n_regions) then
          if env.regarray_ok then .ok { st1 with has_region_itr := true }
          else .error "No reads found for region(s)"
        else .ok st1
      else
        if 0 < n_regions then
          .error "Region query requires an index (.bai/.csi/.crai)"
        else
          -- No index but parallel was requested — fall back to sequential
          .ok { st0 with is_parallel := false, needs_next_contig := false }
    else .ok st0

structure BcfLocalEnv where
  open_ok : Bool          -- hts_open succeeds
  hdr_ok : Bool           -- bcf_hdr_read succeeds
  fmt_is_bcf : Bool       -- hts_get_format reports binary BCF
  idx_opens : Bool        -- bcf_index_load3 succeeds
  tbx_opens : Bool        -- tbx_index_load3 succeeds
  regionItrOk : ℕ → Bool  -- iterator creation for the r-th parsed region

structure BcfCursor where
  is_parallel : Bool
  needs_next_contig : Bool
  has_idx : Bool
  has_tbx : Bool
  has_region_itr : Bool
  next_region_idx : ℕ
  done : Bool

def bcf_read_local_init (b : BcfBindData) (env : BcfLocalEnv) :
    Except String BcfCursor :=
  let n_regions := (parse_regions_duckdb b.region).length
  let is_parallel := b.has_index && decide (1 < b.n_contigs) && decide (n_regions = 0)
  if env.open_ok = false then .error "Failed to open BCF/VCF file"
  else if env.hdr_ok = false then .error "Failed to read BCF/VCF header"
  else
    let loads := is_parallel || decide (0 < n_regions)
    let has_idx := loads && (if env.fmt_is_bcf then env.idx_opens
                             else !env.tbx_opens && env.idx_opens)
    let has_tbx := loads && (!env.fmt_is_bcf && env.tbx_opens)
    let st0 : BcfCursor :=
      { is_parallel := is_parallel, needs_next_contig := is_parallel,
        has_idx := has_idx, has_tbx := has_tbx, has_region_itr := false,
        next_region_idx := 0, done := false }
    if !is_parallel && decide (0 < n_regions) then
      if !has_idx && !has_tbx then
        .error "Region query requires an index file (.tbi or .csi)"
      else
        -- chain: advance next_region_idx until an iterator is created
        match (List.range n_regions).find? env.regionItrOk with
        | some r =>
          .ok { st0 with has_region_itr := true, next_region_idx := r + 1 }
        | none =>
          .ok { st0 with
                has_region_itr := false,
                next_region_idx := n_regions, done := true }
    else .ok st0

/- ================================================================
   Rows produced by one worker driving the scan function to
   completion (`bam_read_function` lines 512-707, `bcf_read_function`
   lines 1096-1960, record-level: batch boundaries do not change the
   set of rows produced).

   * a done cursor produces nothing;
   * a cursor that needs a contig claims via `claim_next_contig`
     (iterator creation requires the thread's own index handle) and,
     after draining each claimed contig's iterator, claims again until
     the coordinator signals exhaustion;
   * a region cursor produces the rows of its (chained) region
     iterators, abstracted as `regionRows`;
   * otherwise the cursor performs a sequential full-file scan and
     produces every record of the file.
   ================================================================ -/

lemma parallel_worker_rows_none (mkItr : ℕ → Bool) (contigRecords : ℕ → ℕ)
    (n c : ℕ) (hmk : ∀ i, mkItr i = false) :
    parallel_worker_rows mkItr contigRecords n c = 0 := by
  rw [parallel_worker_rows]
  by_cases hn : n = 0
  · simp [hn]
  · rcases hcl : claim_next_contig true mkItr n c with ⟨res, c2⟩
    cases res with
    | none => simp [hn, hcl]
    | some i =>
      exfalso
      have hspec := claim_next_contig_spec mkItr n (by omega) c
      rw [hcl] at hspec
      have hfind : (List.range' c (n - c)).find? (fun j => mkItr j) = some i := hspec.symm
      have := List.find?_some hfind
      simp [hmk i] at this

def bam_worker_rows (cur : BamCursor) (n c : ℕ) (contigItrOk : ℕ → Bool)
    (contigRecords : ℕ → ℕ) (totalRecords regionRows : ℕ) : ℕ :=
  if cur.done then 0
  else if cur.needs_next_contig then
    parallel_worker_rows (fun i => cur.has_idx && contigItrOk i) contigRecords n c
  else if cur.has_region_itr then regionRows
  else totalRecords

def bcf_worker_rows (cur : BcfCursor) (n c : ℕ) (contigItrOk : ℕ → Bool)
    (contigRecords : ℕ → ℕ) (totalRecords regionRows : ℕ) : ℕ :=
  if cur.done then 0
  else if cur.needs_next_contig then
    parallel_worker_rows (fun i => (cur.has_idx || cur.has_tbx) && contigItrOk i)
      contigRecords n c
  else if cur.has_region_itr then regionRows
  else totalRecords

/-- C4: behavior when the index fails to open at thread-local init, at
the concrete input: an indexed file with 2 contigs (7 records in all),
no user region, whose index cannot be opened by the worker thread.
* The alignment reader degrades to a sequential full-file scan: init
  succeeds with `is_parallel` cleared and the worker still produces all
  7 rows.
* The variant reader (`bcf_read_local_init`) has no such fallback: init
  succeeds but leaves the cursor in parallel mode with no index, so
  `claim_next_contig` can never create an iterator and the worker
  produces 0 of the 7 rows — contradicting the specified degrade-to-
  sequential behavior (the rows are silently lost).
* In both readers, a region query without an index is a local-init
  error, as the claim states. -/
theorem local_init_index_failure_behavior :
    -- bam: parallel requested, index fails → sequential fallback, full rows
    (bam_read_local_init ⟨true, 2, none, none⟩ ⟨true, true, true, false, true⟩
      = .ok ⟨false, false, false, false, false⟩) ∧
    (bam_worker_rows ⟨false, false, false, false, false⟩ 2 0
      (fun _ => true) (fun i => if i = 0 then 3 else 4) 7 0 = 7) ∧
    -- bcf: same scenario → cursor still parallel, no index, zero rows
    (bcf_read_local_init ⟨true, 2, none⟩ ⟨true, true, true, false, false, fun _ => true⟩
      = .ok ⟨true, true, false, false, false, 0, false⟩) ∧
    (bcf_worker_rows ⟨true, true, false, false, false, 0, false⟩ 2 0
      (fun _ => true) (fun i => if i = 0 then 3 else 4) 7 0 = 0) ∧
    (0 ≠ 7) ∧
    -- region query without an index is fatal for the cursor, in both readers
    (bam_read_local_init ⟨true, 2, some "chr1:1-100", none⟩
        ⟨true, true, true, false, true⟩
      = .error "Region query requires an index (.bai/.csi/.crai)") ∧
    (bcf_read_local_init ⟨false, 2, some "chr1:1-100"⟩
        ⟨true, true, true, false, false, fun _ => true⟩
      = .error "Region query requires an index file (.tbi or .csi)") := by
  refine ⟨?_, ?_, ?_, ?_, by decide, ?_, ?_⟩
  · rfl
  · rfl
  · rfl
  · show parallel_worker_rows _ _ 2 0 = 0
    exact parallel_worker_rows_none _ _ 2 0 (fun i => by simp)
  · rfl
  · rfl

/- ================================================================
   VCF type system (`include/vcf_types.h`).

   htslib constants: `BCF_VL_FIXED=0, BCF_VL_VAR=1, BCF_VL_A=2,
   BCF_VL_G=3, BCF_VL_R=4`; `BCF_HT_FLAG=0, BCF_HT_INT=1, BCF_HT_REAL=2,
   BCF_HT_STR=3`.  The fixed specification tables, lookup, checks and
   validators are translated entry by entry from the header.
   Diagnostics (`vcf_emit_warning`) are modelled as a list of emitted
   events.
   ================================================================ -/

def BCF_VL_FIXED : ℕ := 0
def BCF_VL_VAR : ℕ := 1
def BCF_VL_A : ℕ := 2
def BCF_VL_G : ℕ := 3
def BCF_VL_R : ℕ := 4

def BCF_HT_FLAG : ℕ := 0
def BCF_HT_INT : ℕ := 1
def BCF_HT_REAL : ℕ := 2
def BCF_HT_STR : ℕ := 3

structure VcfFieldSpec where
  name : String
  number_str : String
  vl_type : ℕ
  count : ℕ
  type : ℕ
deriving DecidableEq, Repr

def VCF_FORMAT_SPECS : List VcfFieldSpec :=
  [⟨"AD",  "R", BCF_VL_R,     0, BCF_HT_INT⟩,
   ⟨"ADF", "R", BCF_VL_R,     0, BCF_HT_INT⟩,
   ⟨"ADR", "R", BCF_VL_R,     0, BCF_HT_INT⟩,
   ⟨"EC",  "A", BCF_VL_A,     0, BCF_HT_INT⟩,
   ⟨"GL",  "G", BCF_VL_G,     0, BCF_HT_REAL⟩,
   ⟨"GP",  "G", BCF_VL_G,     0, BCF_HT_REAL⟩,
   ⟨"PL",  "G", BCF_VL_G,     0, BCF_HT_INT⟩,
   ⟨"PP",  "G", BCF_VL_G,     0, BCF_HT_INT⟩,
   ⟨"DP",  "1", BCF_VL_FIXED, 1, BCF_HT_INT⟩,
   ⟨"LEN", "1", BCF_VL_FIXED, 1, BCF_HT_INT⟩,
   ⟨"FT",  "1", BCF_VL_FIXED, 1, BCF_HT_STR⟩,
   ⟨"GQ",  "1", BCF_VL_FIXED, 1, BCF_HT_INT⟩,
   ⟨"GT",  "1", BCF_VL_FIXED, 1, BCF_HT_STR⟩,
   ⟨"HQ",  "2", BCF_VL_FIXED, 2, BCF_HT_INT⟩,
   ⟨"MQ",  "1", BCF_VL_FIXED, 1, BCF_HT_INT⟩,
   ⟨"PQ",  "1", BCF_VL_FIXED, 1, BCF_HT_INT⟩,
   ⟨"PS",  "1", BCF_VL_FIXED, 1, BCF_HT_INT⟩]

def VCF_INFO_SPECS : List VcfFieldSpec :=
  [⟨"AD",        "R", BCF_VL_R,     0, BCF_HT_INT⟩,
   ⟨"ADF",       "R", BCF_VL_R,     0, BCF_HT_INT⟩,
   ⟨"ADR",       "R", BCF_VL_R,     0, BCF_HT_INT⟩,
   ⟨"AC",        "A", BCF_VL_A,     0, BCF_HT_INT⟩,
   ⟨"AF",        "A", BCF_VL_A,     0, BCF_HT_REAL⟩,
   ⟨"CIGAR",     "A", BCF_VL_A,     0, BCF_HT_STR⟩,
   ⟨"AA",        "1", BCF_VL_FIXED, 1, BCF_HT_STR⟩,
   ⟨"AN",        "1", BCF_VL_FIXED, 1, BCF_HT_INT⟩,
   ⟨"BQ",        "1", BCF_VL_FIXED, 1, BCF_HT_REAL⟩,
   ⟨"DB",        "0", BCF_VL_FIXED, 0, BCF_HT_FLAG⟩,
   ⟨"DP",        "1", BCF_VL_FIXED, 1, BCF_HT_INT⟩,
   ⟨"END",       "1", BCF_VL_FIXED, 1, BCF_HT_INT⟩,
   ⟨"H2",        "0", BCF_VL_FIXED, 0, BCF_HT_FLAG⟩,
   ⟨"H3",        "0", BCF_VL_FIXED, 0, BCF_HT_FLAG⟩,
   ⟨"MQ",        "1", BCF_VL_FIXED, 1, BCF_HT_REAL⟩,
   ⟨"MQ0",       "1", BCF_VL_FIXED, 1, BCF_HT_INT⟩,
   ⟨"NS",        "1", BCF_VL_FIXED, 1, BCF_HT_INT⟩,
   ⟨"SB",        "4", BCF_VL_FIXED, 4, BCF_HT_INT⟩,
   ⟨"SOMATIC",   "0", BCF_VL_FIXED, 0, BCF_HT_FLAG⟩,
   ⟨"VALIDATED", "0", BCF_VL_FIXED, 0, BCF_HT_FLAG⟩,
   ⟨"1000G",     "0", BCF_VL_FIXED, 0, BCF_HT_FLAG⟩]

def vcf_lookup_format_spec (name : String) : Option VcfFieldSpec :=
  VCF_FORMAT_SPECS.find? (fun s => s.name == name)

def vcf_lookup_info_spec (name : String) : Option VcfFieldSpec :=
  VCF_INFO_SPECS.find? (fun s => s.name == name)

def vcf_check_number (spec : VcfFieldSpec) (header_vl_type : ℕ) : Bool :=
  if spec.vl_type = BCF_VL_FIXED then header_vl_type ≠ BCF_VL_FIXED
  else header_vl_type ≠ spec.vl_type && header_vl_type ≠ BCF_VL_VAR

def vcf_check_type (spec : VcfFieldSpec) (header_type : ℕ) : Bool :=
  header_type ≠ spec.type

/-- A diagnostic emitted through `vcf_emit_warning`. -/
inductive VcfDiag where
  | numberDiag (field : String) (expected_number : String)
  | typeDiag (field : String) (spec_type header_type : ℕ)
deriving DecidableEq, Repr

/-- Result of field validation: corrected arity class (`corrected_vl_type`),
decoding scalar type (`*corrected_type`), emitted diagnostics. -/
def vcf_validate_info_field (field_name : String)
    (header_vl_type header_type : ℕ) : ℕ × ℕ × List VcfDiag :=
  match vcf_lookup_info_spec field_name with
  | none => (header_vl_type, header_type, [])
  | some spec =>
    let d1 : List VcfDiag :=
      if vcf_check_number spec header_vl_type then
        [.numberDiag field_name spec.number_str] else []
    let corrected_vl :=
      if vcf_check_number spec header_vl_type then spec.vl_type
      else header_vl_type
    let d2 : List VcfDiag :=
      if vcf_check_type spec header_type then
        [.typeDiag field_name spec.type header_type] else []
    (corrected_vl, header_type, d1 ++ d2)

def vcf_validate_format_field (field_name : String)
    (header_vl_type header_type : ℕ) : ℕ × ℕ × List VcfDiag :=
  match vcf_lookup_format_spec field_name with
  | none => (header_vl_type, header_type, [])
  | some spec =>
    let d1 : List VcfDiag :=
      if vcf_check_number spec header_vl_type then
        [.numberDiag field_name spec.number_str] else []
    let corrected_vl :=
      if vcf_check_number spec header_vl_type then spec.vl_type
      else header_vl_type
    let d2 : List VcfDiag :=
      if vcf_check_type spec header_type then
        [.typeDiag field_name spec.type header_type] else []
    (corrected_vl, header_type, d1 ++ d2)

def vcf_is_list_type (vl_type : ℕ) : Bool := vl_type ≠ BCF_VL_FIXED

/-- Per `bcf_read_bind` lines 574-585: the list-vs-scalar column shape of an
INFO field is decided by the corrected arity class. -/
def info_field_is_list (field_name : String)
    (header_vl_type header_type : ℕ) : Bool :=
  vcf_is_list_type (vcf_validate_info_field field_name header_vl_type header_type).1

lemma vcf_validate_generic_characterization
    (lookup : String → Option VcfFieldSpec)
    (validate : String → ℕ → ℕ → ℕ × ℕ × List VcfDiag)
    (hval : ∀ name hvl ht, validate name hvl ht =
      match lookup name with
      | none => (hvl, ht, [])
      | some spec =>
        let d1 : List VcfDiag :=
          if vcf_check_number spec hvl then [.numberDiag name spec.number_str] else []
        let corrected_vl := if vcf_check_number spec hvl then spec.vl_type else hvl
        let d2 : List VcfDiag :=
          if vcf_check_type spec ht then [.typeDiag name spec.type ht] else []
        (corrected_vl, ht, d1 ++ d2))
    (name : String) (hvl ht : ℕ) :
    (validate name hvl ht).2.1 = ht ∧
    (lookup name = none → validate name hvl ht = (hvl, ht, [])) ∧
    (∀ spec, lookup name = some spec →
      ((validate name hvl ht).1 =
        if (spec.vl_type = BCF_VL_FIXED ∧ hvl ≠ BCF_VL_FIXED) ∨
           (spec.vl_type ≠ BCF_VL_FIXED ∧ hvl ≠ spec.vl_type ∧ hvl ≠ BCF_VL_VAR)
        then spec.vl_type else hvl) ∧
      ((validate name hvl ht).2.2 = [] ↔
        (¬ ((spec.vl_type = BCF_VL_FIXED ∧ hvl ≠ BCF_VL_FIXED) ∨
            (spec.vl_type ≠ BCF_VL_FIXED ∧ hvl ≠ spec.vl_type ∧ hvl ≠ BCF_VL_VAR)) ∧
         ht = spec.type))) := by
  have hnum : ∀ spec : VcfFieldSpec, vcf_check_number spec hvl = true ↔
      ((spec.vl_type = BCF_VL_FIXED ∧ hvl ≠ BCF_VL_FIXED) ∨
       (spec.vl_type ≠ BCF_VL_FIXED ∧ hvl ≠ spec.vl_type ∧ hvl ≠ BCF_VL_VAR)) := by
    intro spec
    rw [vcf_check_number]
    by_cases hf : spec.vl_type = BCF_VL_FIXED
    · simp [hf]
    · simp [hf]
  refine ⟨?_, ?_, ?_⟩
  · rw [hval]
    cases hlk : lookup name <;> simp [hlk]
  · intro hlk
    rw [hval, hlk]
  · intro spec hlk
    rw [hval, hlk]
    constructor
    · by_cases hn : vcf_check_number spec hvl
      · rw [if_pos ((hnum spec).mp hn)]
        simp [hn]
      · rw [if_neg (fun hx => hn ((hnum spec).mpr hx))]
        simp [hn]
    · by_cases hn : vcf_check_number spec hvl <;>
        by_cases htc : vcf_check_type spec ht
      · refine iff_of_false (by simp [hn, htc]) ?_
        rintro ⟨hx, -⟩
        exact hx ((hnum spec).mp hn)
      · refine iff_of_false (by simp [hn, htc]) ?_
        rintro ⟨hx, -⟩
        exact hx ((hnum spec).mp hn)
      · refine iff_of_false (by simp [hn, htc]) ?_
        rintro ⟨-, hx⟩
        rw [vcf_check_type] at htc
        simp [hx] at htc
      · refine iff_of_true (by simp [hn, htc]) ⟨fun hx => hn ((hnum spec).mpr hx), ?_⟩
        rw [vcf_check_type] at htc
        simpa using htc

/-- C5 (amended): validation of a header-declared INFO/FORMAT field never
fails the bind (the validators below are total and have no error
outcome); the returned decoding scalar type always equals the header's
declared type; a field absent from the fixed table is returned entirely
unchanged with no diagnostic; and for a field found in the table the
arity is corrected to the table's class — with a diagnostic — exactly
when the header's class is non-fixed for a fixed-arity table entry, or
neither the table's class nor the variable class for a non-fixed table
entry (a variable header arity is accepted unchanged for non-fixed
table entries); no diagnostic at all is emitted iff the arity needs no
correction and the header's type equals the table's.  The corrected
arity class decides the list-vs-scalar column shape. -/
theorem vcf_validate_spec_table_behavior (name : String) (hvl ht : ℕ) :
    ((vcf_validate_info_field name hvl ht).2.1 = ht ∧
     (vcf_lookup_info_spec name = none →
       vcf_validate_info_field name hvl ht = (hvl, ht, [])) ∧
     (∀ spec, vcf_lookup_info_spec name = some spec →
       ((vcf_validate_info_field name hvl ht).1 =
         if (spec.vl_type = BCF_VL_FIXED ∧ hvl ≠ BCF_VL_FIXED) ∨
            (spec.vl_type ≠ BCF_VL_FIXED ∧ hvl ≠ spec.vl_type ∧ hvl ≠ BCF_VL_VAR)
         then spec.vl_type else hvl) ∧
       ((vcf_validate_info_field name hvl ht).2.2 = [] ↔
         (¬ ((spec.vl_type = BCF_VL_FIXED ∧ hvl ≠ BCF_VL_FIXED) ∨
             (spec.vl_type ≠ BCF_VL_FIXED ∧ hvl ≠ spec.vl_type ∧ hvl ≠ BCF_VL_VAR)) ∧
          ht = spec.type)))) ∧
    ((vcf_validate_format_field name hvl ht).2.1 = ht ∧
     (vcf_lookup_format_spec name = none →
       vcf_validate_format_field name hvl ht = (hvl, ht, [])) ∧
     (∀ spec, vcf_lookup_format_spec name = some spec →
       ((vcf_validate_format_field name hvl ht).1 =
         if (spec.vl_type = BCF_VL_FIXED ∧ hvl ≠ BCF_VL_FIXED) ∨
            (spec.vl_type ≠ BCF_VL_FIXED ∧ hvl ≠ spec.vl_type ∧ hvl ≠ BCF_VL_VAR)
         then spec.vl_type else hvl) ∧
       ((vcf_validate_format_field name hvl ht).2.2 = [] ↔
         (¬ ((spec.vl_type = BCF_VL_FIXED ∧ hvl ≠ BCF_VL_FIXED) ∨
             (spec.vl_type ≠ BCF_VL_FIXED ∧ hvl ≠ spec.vl_type ∧ hvl ≠ BCF_VL_VAR)) ∧
          ht = spec.type)))) ∧
    info_field_is_list name hvl ht
      = vcf_is_list_type (vcf_validate_info_field name hvl ht).1 :=
  ⟨vcf_validate_generic_characterization vcf_lookup_info_spec
      vcf_validate_info_field (fun _ _ _ => rfl) name hvl ht,
   vcf_validate_generic_characterization vcf_lookup_format_spec
      vcf_validate_format_field (fun _ _ _ => rfl) name hvl ht,
   rfl⟩

/-- C5 counterexample: the INFO field `AC` is in the table with arity
class `A` (per-alternate-allele), yet a header declaring `Number=.`
(the variable class) — which disagrees with the table's class — is
accepted unchanged: no diagnostic is emitted and the header's class,
not the table's, is returned. -/
theorem vcf_validate_var_arity_counterexample :
    vcf_validate_info_field "AC" BCF_VL_VAR BCF_HT_INT
      = (BCF_VL_VAR, BCF_HT_INT, []) ∧
    vcf_lookup_info_spec "AC" = some ⟨"AC", "A", BCF_VL_A, 0, BCF_HT_INT⟩ ∧
    BCF_VL_VAR ≠ BCF_VL_A := by
  refine ⟨rfl, rfl, by decide⟩

/- ================================================================
   Sentinel filtering of integer/float list fields.

   `bcf_read_function` (INFO lines 1529-1561/1599-1631, FORMAT lines
   1728-1761/1800-1833): a first loop counts the values that are neither
   the format's "missing" nor its "vector-end" sentinel, a second loop
   writes exactly those values in storage order.  The loops are
   polymorphic in the element type and validity test (`int32` compares
   against `bcf_int32_missing`/`bcf_int32_vector_end`; the float variant
   tests the NaN-payload sentinels via `bcf_float_is_missing` /
   `bcf_float_is_vector_end`).
   ================================================================ -/

def count_valid_loop {β : Type} (isValid : β → Bool) : List β → ℕ
  | [] => 0
  | v :: rest => (if isValid v then 1 else 0) + count_valid_loop isValid rest

def fill_valid_loop {β : Type} (isValid : β → Bool) : List β → List β
  | [] => []
  | v :: rest =>
    if isValid v then v :: fill_valid_loop isValid rest
    else fill_valid_loop isValid rest

def bcf_int32_missing : ℤ := -(2 ^ 31)
def bcf_int32_vector_end : ℤ := -(2 ^ 31) + 1

def int32_entry_valid (v : ℤ) : Bool :=
  v ≠ bcf_int32_missing && v ≠ bcf_int32_vector_end

/-- The emitted list for an integer list-typed INFO/FORMAT field. -/
def emit_int32_list (values : List ℤ) : List ℤ :=
  fill_valid_loop int32_entry_valid values

lemma fill_valid_loop_eq_filter {β : Type} (isValid : β → Bool) (vs : List β) :
    fill_valid_loop isValid vs = vs.filter isValid := by
  induction vs with
  | nil => rfl
  | cons v rest ih =>
    rw [fill_valid_loop, List.filter_cons]
    by_cases h : isValid v <;> simp [h, ih]

lemma count_valid_loop_eq_length {β : Type} (isValid : β → Bool) (vs : List β) :
    count_valid_loop isValid vs = (vs.filter isValid).length := by
  induction vs with
  | nil => rfl
  | cons v rest ih =>
    rw [count_valid_loop, List.filter_cons]
    by_cases h : isValid v <;> simp [h, ih] <;> omega

/-- C6: for integer/float list fields the emitted list is exactly the
stored values that are neither the missing nor the vector-end sentinel,
in storage order, and the counted list length equals the number of
non-sentinel entries; e.g. storage `[5, 3, MISSING, MISSING]` is
emitted as `[5, 3]`.  The first two conjuncts cover any element
type/sentinel test (integer and float paths share the loop shape); the
last two instantiate the int32 sentinels. -/
theorem list_field_sentinel_filtering {β : Type} (isValid : β → Bool)
    (gs : List β) (vs : List ℤ) :
    fill_valid_loop isValid gs = gs.filter isValid ∧
    count_valid_loop isValid gs = (fill_valid_loop isValid gs).length ∧
    emit_int32_list vs = vs.filter int32_entry_valid ∧
    emit_int32_list [5, 3, bcf_int32_missing, bcf_int32_missing] = [5, 3] := by
  refine ⟨fill_valid_loop_eq_filter isValid gs, ?_,
    fill_valid_loop_eq_filter int32_entry_valid vs, by decide⟩
  rw [fill_valid_loop_eq_filter, count_valid_loop_eq_length]

/- ================================================================
   Genotype (GT) decoding, `bcf_read_function` lines 1858-1902.

   htslib encoding of one genotype value (a C `int32_t`):
   `bcf_gt_is_phased(v) = v & 1`, `bcf_gt_is_missing(v) = !(v >> 1)`,
   `bcf_gt_allele(v) = (v >> 1) - 1`, with `>>` the arithmetic shift
   (floor division by 2) and `&1` the low bit (parity).  The loop
   builds `allele[sep]allele...` into `char gt_str[64]`, guarded by
   `pos < 60`; `snprintf` is modelled as appending the full decimal
   representation, faithful whenever the write fits the buffer (it
   does for the single-digit alleles the theorems quantify over).
   ================================================================ -/

def bcf_gt_is_phased (v : ℤ) : Bool := v % 2 = 1

def bcf_gt_is_missing (v : ℤ) : Bool := Int.fdiv v 2 = 0

def bcf_gt_allele (v : ℤ) : ℤ := Int.fdiv v 2 - 1

def gt_sep_char (v : ℤ) : Char := if bcf_gt_is_phased v then '|' else '/'

def gt_body_chars (v : ℤ) : List Char :=
  if bcf_gt_is_missing v then ['.'] else (toString (bcf_gt_allele v)).data

def gt_loop : List ℤ → ℕ → Bool → List Char → List Char
  | [], _, _, acc => acc
  | v :: rest, pos, isFirst, acc =>
    if pos < 60 then
      let acc1 := if isFirst then acc else acc ++ [gt_sep_char v]
      let pos1 := if isFirst then pos else pos + 1
      if v = bcf_int32_vector_end then acc1
      else gt_loop rest (pos1 + (gt_body_chars v).length) false (acc1 ++ gt_body_chars v)
    else acc

/-- The GT column value for one sample: its ploidy-sized slice of the
decoded genotype array, rendered by the loop; `none` models the NULL
written when nothing was rendered (`pos > 0` fails). -/
def bcf_gt_decode (sample_gt : List ℤ) : Option String :=
  let cs := gt_loop sample_gt 0 true []
  if 0 < cs.length then some (String.mk cs) else none

/-- What the loop appends after the first entry (code path). -/
def gt_tail_spec : List ℤ → List Char
  | [] => []
  | v :: rest =>
    gt_sep_char v ::
      (if v = bcf_int32_vector_end then [] else gt_body_chars v ++ gt_tail_spec rest)

/-- Rendering following the claim's words: the separator-joined tail of
the allele sequence, not entered at a vector-end sentinel. -/
def gt_join_tail : List ℤ → List Char
  | [] => []
  | v :: rest => gt_sep_char v :: (gt_body_chars v ++ gt_join_tail rest)

/-- Rendering following the claim's words: the sequence of allele
numbers (or `.` when missing) joined by per-pair separators, stopping
at a vector-end sentinel. -/
def gt_spec_render (gts : List ℤ) : String :=
  match gts.takeWhile (fun v => v ≠ bcf_int32_vector_end) with
  | [] => ""
  | v :: rest => String.mk (gt_body_chars v ++ gt_join_tail rest)

/-- True when the genotype slice is cut short by a vector-end sentinel. -/
def gt_truncated (gts : List ℤ) : Bool :=
  (gts.takeWhile (fun v => v ≠ bcf_int32_vector_end)).length < gts.length

lemma mk_append_chars (a b : List Char) :
    String.mk (a ++ b) = String.mk a ++ String.mk b := rfl

lemma gt_body_chars_length (v : ℤ) (h0 : 0 ≤ v) (h1 : v ≤ 21) :
    (gt_body_chars v).length = 1 := by
  interval_cases v <;> decide

lemma gt_loop_false_eq : ∀ (gts : List ℤ) (pos : ℕ) (acc : List Char),
    (∀ v ∈ gts, (0 ≤ v ∧ v ≤ 21) ∨ v = bcf_int32_vector_end) →
    pos + 2 * gts.length ≤ 60 →
    gt_loop gts pos false acc = acc ++ gt_tail_spec gts := by
  intro gts
  induction gts with
  | nil => intro pos acc _ _; simp [gt_loop, gt_tail_spec]
  | cons v rest ih =>
    intro pos acc hwf hbound
    rw [gt_loop]
    have hpos : pos < 60 := by
      have := List.length_cons v rest
      omega
    rw [if_pos hpos]
    by_cases hv : v = bcf_int32_vector_end
    · simp [hv, gt_tail_spec]
    · have hv01 : 0 ≤ v ∧ v ≤ 21 := by
        rcases hwf v (List.mem_cons_self v rest) with h | h
        · exact h
        · exact absurd h hv
      have hb := gt_body_chars_length v hv01.1 hv01.2
      simp only [Bool.false_eq_true, if_false, hv, if_neg, not_false_iff]
      rw [ih (pos + 1 + (gt_body_chars v).length) (acc ++ [gt_sep_char v] ++ gt_body_chars v)
        (fun w hw => hwf w (List.mem_cons_of_mem v hw))
        (by simp at hbound ⊢; omega)]
      rw [gt_tail_spec]
      simp [hv, List.append_assoc]

lemma gt_sep_char_vector_end : gt_sep_char bcf_int32_vector_end = '|' := by decide

lemma gt_tail_spec_eq : ∀ (gts : List ℤ),
    gt_tail_spec gts
      = gt_join_tail (gts.takeWhile (fun v => v ≠ bcf_int32_vector_end)) ++
        (if (gts.takeWhile (fun v => v ≠ bcf_int32_vector_end)).length < gts.length
         then ['|'] else []) := by
  intro gts
  induction gts with
  | nil => simp [gt_tail_spec, gt_join_tail]
  | cons v rest ih =>
    by_cases hv : v = bcf_int32_vector_end
    · rw [gt_tail_spec]
      have htw : (v :: rest).takeWhile (fun v => decide (v ≠ bcf_int32_vector_end)) = [] := by
        rw [List.takeWhile_cons]
        simp [hv]
      rw [htw]
      simp [hv, gt_sep_char_vector_end, gt_join_tail]
    · rw [gt_tail_spec]
      have htw : (v :: rest).takeWhile (fun v => decide (v ≠ bcf_int32_vector_end))
          = v :: rest.takeWhile (fun v => decide (v ≠ bcf_int32_vector_end)) := by
        rw [List.takeWhile_cons]
        simp [hv]
      rw [htw, gt_join_tail]
      simp only [hv, Bool.false_eq_true, if_false, if_neg, not_false_iff, ih,
        List.length_cons]
      have hcond : ((rest.takeWhile (fun v => decide (v ≠ bcf_int32_vector_end))).length + 1
            < rest.length + 1)
          ↔ ((rest.takeWhile (fun v => decide (v ≠ bcf_int32_vector_end))).length
            < rest.length) := by omega
      by_cases hc : (rest.takeWhile (fun v => decide (v ≠ bcf_int32_vector_end))).length
          < rest.length
      · simp [hc, List.append_assoc]
      · simp [hc, List.append_assoc]

/-- C7 (amended): for a well-formed encoded genotype slice (each entry
is the vector-end sentinel, a missing encoding, or an allele number of
at most one digit) of ploidy at most 29, the emitted GT string is the
sequence of allele numbers (`.` for a missing allele) joined by a
per-adjacent-pair separator — `|` when the right entry's phase bit is
set, `/` otherwise — stopping at a vector-end sentinel, EXCEPT that
when the sentinel occurs at a position ≥ 1 the separator for that
position (always `|`, since the sentinel's low bit is set) has already
been written, so the string carries one trailing `|`; a slice starting
with the sentinel (or empty) renders nothing and the column is NULL. -/
theorem bcf_gt_decode_amended (gts : List ℤ)
    (hwf : ∀ v ∈ gts, (0 ≤ v ∧ v ≤ 21) ∨ v = bcf_int32_vector_end)
    (hlen : gts.length ≤ 29) :
    bcf_gt_decode gts =
      if gts.takeWhile (fun v => v ≠ bcf_int32_vector_end) = [] then none
      else some (gt_spec_render gts ++ if gt_truncated gts then "|" else "") := by
  cases gts with
  | nil => rfl
  | cons v rest =>
    by_cases hv : v = bcf_int32_vector_end
    · have htw : (v :: rest).takeWhile (fun v => decide (v ≠ bcf_int32_vector_end)) = [] := by
        rw [List.takeWhile_cons]; simp [hv]
      rw [htw, if_pos rfl]
      simp [bcf_gt_decode, gt_loop, hv]
    · have hv01 : 0 ≤ v ∧ v ≤ 21 := by
        rcases hwf v (List.mem_cons_self v rest) with h | h
        · exact h
        · exact absurd h hv
      have hb := gt_body_chars_length v hv01.1 hv01.2
      have hrl : rest.length ≤ 28 := by
        have := List.length_cons v rest
        omega
      have htw : (v :: rest).takeWhile (fun v => decide (v ≠ bcf_int32_vector_end))
          = v :: rest.takeWhile (fun v => decide (v ≠ bcf_int32_vector_end)) := by
        rw [List.takeWhile_cons]; simp [hv]
      have hrest : ∀ w ∈ rest, (0 ≤ w ∧ w ≤ 21) ∨ w = bcf_int32_vector_end :=
        fun w hw => hwf w (List.mem_cons_of_mem v hw)
      have hloop : gt_loop (v :: rest) 0 true []
          = gt_body_chars v ++ gt_tail_spec rest := by
        rw [gt_loop]
        simp only [hv, if_false, if_true, ite_true, ite_false, List.nil_append,
          Nat.zero_add, decide_not, not_false_iff]
        rw [gt_loop_false_eq rest ((gt_body_chars v).length) (gt_body_chars v) hrest
          (by omega)]
        norm_num
      rw [htw, if_neg (List.cons_ne_nil _ _)]
      simp only [bcf_gt_decode, hloop]
      rw [if_pos (by simp only [List.length_append]; omega)]
      have hrender : gt_spec_render (v :: rest)
          = String.mk (gt_body_chars v ++
              gt_join_tail (rest.takeWhile (fun v => decide (v ≠ bcf_int32_vector_end)))) := by
        rw [gt_spec_render, htw]
      have htrunc : gt_truncated (v :: rest)
          = decide ((rest.takeWhile (fun v => decide (v ≠ bcf_int32_vector_end))).length
              < rest.length) := by
        rw [gt_truncated, htw]
        simp
      rw [hrender, htrunc, gt_tail_spec_eq rest]
      by_cases hc : (rest.takeWhile (fun v => decide (v ≠ bcf_int32_vector_end))).length
          < rest.length
      · rw [if_pos hc, if_pos (by simpa using hc)]
        show some (String.mk (gt_body_chars v ++ (gt_join_tail _ ++ ['|']))) =
          some (String.mk ((gt_body_chars v ++ gt_join_tail _) ++ ['|']))
        rw [List.append_assoc]
      · rw [if_neg hc, if_neg (by simpa using hc)]
        show some (String.mk (gt_body_chars v ++ (gt_join_tail _ ++ []))) =
          some (String.mk ((gt_body_chars v ++ gt_join_tail _) ++ []))
        rw [List.append_assoc]

/-- C7 counterexample: the diploid slice `[unphased allele 0,
vector-end]` (a lower-ploidy sample padded with the sentinel).  The
claim's rendering — allele numbers joined by per-pair separators,
stopping at the vector-end sentinel — is `"0"`, but the code emits
`"0|"`: the separator is written *before* the sentinel test, so the
string ends in a separator with no following allele. -/
theorem gt_vector_end_counterexample :
    bcf_gt_decode [2, bcf_int32_vector_end] = some "0|" ∧
    gt_spec_render [2, bcf_int32_vector_end] = "0" ∧
    some ("0|" : String) ≠ some ("0" : String) := by
  refine ⟨by decide, by decide, by decide⟩

/-- Witness for `bcf_gt_decode_amended`: the diploid unphased encoding
of alleles 0 and 1 (`[2, 4]`) decodes to `"0/1"`, as the claim's
example states. -/
theorem bcf_gt_decode_amended_witness :
    (∀ v ∈ ([2, 4] : List ℤ), (0 ≤ v ∧ v ≤ 21) ∨ v = bcf_int32_vector_end) ∧
    ([2, 4] : List ℤ).length ≤ 29 ∧
    bcf_gt_decode [2, 4] =
      (if ([2, 4] : List ℤ).takeWhile (fun v => v ≠ bcf_int32_vector_end) = [] then none
       else some (gt_spec_render [2, 4] ++ if gt_truncated [2, 4] then "|" else "")) ∧
    bcf_gt_decode [2, 4] = some "0/1" :=
  ⟨by decide, by decide,
   bcf_gt_decode_amended [2, 4] (by decide) (by decide), by decide⟩

/- ================================================================
   VEP numeric sub-field parsing (`vep_parser.c` lines 200-213 and
   236-277) and the integer emission path of `bcf_read_function`
   (lines 1451-1461).

   `strtol(str, &endptr, 10)` is modelled exactly for values within the
   `long` range: skip C whitespace, optional sign, consume decimal
   digits; if no digit is consumed `endptr == str`.
   ================================================================ -/

def c_isspace (ch : Char) : Bool :=
  ch == ' ' || ch == '\t' || ch == '\n' || ch == '\x0b' || ch == '\x0c' || ch == '\r'

/-- Model of `strtol` base 10: value, the input remainder after `endptr`, and
whether any digit was consumed (`endptr != str`). -/
def strtol10 (cs : List Char) : ℤ × List Char × Bool :=
  let s1 := cs.dropWhile c_isspace
  let (neg, s2) :=
    match s1 with
    | '-' :: t => (true, t)
    | '+' :: t => (false, t)
    | _ => (false, s1)
  let digits := s2.takeWhile Char.isDigit
  let rest := s2.dropWhile Char.isDigit
  if digits.isEmpty then (0, cs, false)
  else
    let v : ℤ := digits.foldl (fun a ch => a * 10 + (ch.toNat - 48 : ℕ)) 0
    (if neg then -v else v, rest, true)

def INT32_MIN : ℤ := -(2 ^ 31)

/-- The C cast `(int32_t)val` (wrap-around; identity for in-range values). -/
def int32_cast (v : ℤ) : ℤ := (v + 2 ^ 31) % 2 ^ 32 - 2 ^ 31

/-- Model of `vep_parse_int`: returns `(return code, *result)`; on empty/`"."`
input code 0, on a parse error (no digits, or trailing non-numeric
content) code -1 — in both cases `*result` is set to `INT32_MIN`. -/
def vep_parse_int (s : String) : ℤ × ℤ :=
  if s.data.isEmpty || s == "." then (0, INT32_MIN)
  else
    let r := strtol10 s.data
    if !r.2.2 || !r.2.1.isEmpty then (-1, INT32_MIN)
    else (1, int32_cast r.1)

/-- The whitespace trimming `parse_single_transcript` applies to each
`|`-separated token (the trailing loop `end > token` cannot consume the
first character, but after the leading trim that character is not a
space, so two-sided trimming is equivalent). -/
def c_trim (cs : List Char) : List Char :=
  let t1 := cs.dropWhile c_isspace
  (t1.reverse.dropWhile c_isspace).reverse

structure VepValue where
  str_value : Option String
  int_value : ℤ
  is_missing : Bool
deriving DecidableEq, Repr

/-- Behavior of `parse_single_transcript` on one integer-typed sub-field token: the
token is trimmed; an empty or `"."` token stays missing; otherwise
`is_missing` is cleared and `vep_parse_int`'s result value is stored —
its error return code is ignored. -/
def vep_parse_token_int (token : String) : VepValue :=
  let t := c_trim token.data
  if t.isEmpty || t = ['.'] then
    { str_value := none, int_value := INT32_MIN, is_missing := true }
  else
    { str_value := some (String.mk t),
      int_value := (vep_parse_int (String.mk t)).2,
      is_missing := false }

/-- The integer VEP column write (`bcf_read_function` lines 1451-1461):
a valid cell with `int_value` when the parsed value is present and not
missing, NULL otherwise. -/
def vep_emit_int (v : VepValue) : Option ℤ :=
  if v.is_missing = false then some v.int_value else none

/-- C8: evaluation of the integer sub-field pipeline.  Empty and `"."`
sub-fields are emitted as missing and a clean number parses fully, as
the claim states; but a token with trailing non-numeric content
(`"12abc"`), for which `vep_parse_int` itself reports failure (-1) and
stores the `INT32_MIN` sentinel, is emitted as the *valid* value
-2147483648 rather than as missing, because `parse_single_transcript`
ignores the error return after having cleared `is_missing`. -/
theorem vep_int_subfield_strictness :
    vep_emit_int (vep_parse_token_int "12abc") = some (-(2 ^ 31)) ∧
    vep_emit_int (vep_parse_token_int "") = none ∧
    vep_emit_int (vep_parse_token_int ".") = none ∧
    vep_emit_int (vep_parse_token_int "12") = some 12 ∧
    vep_parse_int "12abc" = (-1, INT32_MIN) ∧
    some (-(2 ^ 31) : ℤ) ≠ none := by
  refine ⟨by decide, by decide, by decide, by decide, by decide, by decide⟩

/- ================================================================
   CIGAR rendering (`bam_reader.c` lines 215-224, used at lines
   602-611 with the fixed 8192-byte `cigar_buf`).

   A CIGAR operation is a `uint32_t` `w` with `oplen = w >> 4` (28
   bits) and `opchr = "MIDNSHP=XB??????"[w & 0xf]`.  Each loop
   iteration `snprintf`s `"%d%c"`; since the loop guard guarantees
   more than 12 free bytes and an operation renders to at most 10
   characters, `snprintf` never truncates and returns the appended
   length, which the model adds to `pos`.
   ================================================================ -/

def BAM_CIGAR_CHARS : List Char := "MIDNSHP=XB??????".data

def bam_cigar_op (w : ℕ) : ℕ := w % 16

def bam_cigar_oplen (w : ℕ) : ℕ := w / 16

def bam_cigar_opchr (op : ℕ) : Char := BAM_CIGAR_CHARS.getD (op % 16) '?'

def cigar_pair_chars (w : ℕ) : List Char :=
  (toString (bam_cigar_oplen w)).data ++ [bam_cigar_opchr (bam_cigar_op w)]

def cigar_to_string_go : List ℕ → ℕ → ℕ → List Char → List Char
  | [], _, _, acc => acc
  | w :: rest, bufSize, pos, acc =>
    if pos + 12 < bufSize then
      cigar_to_string_go rest bufSize (pos + (cigar_pair_chars w).length)
        (acc ++ cigar_pair_chars w)
    else acc

/-- Model of `cigar_to_string`: the buffer content up to the terminating NUL.
"Fits in a buffer of size `bufSize`" is expressed as
`length < bufSize`: all characters and the NUL live at indices
`< bufSize`. -/
def cigar_to_string (ops : List ℕ) (bufSize : ℕ) : String :=
  String.mk (cigar_to_string_go ops bufSize 0 [])

/-- The full `<length><operator>` rendering of a list of operations
(the claim's wording). -/
def cigarConcat (ops : List ℕ) : List Char := (ops.map cigar_pair_chars).join

lemma cigar_pair_chars_length_le (w : ℕ) (hw : w < 2 ^ 32) :
    (cigar_pair_chars w).length ≤ 10 := by
  rw [cigar_pair_chars, List.length_append]
  have hlen : (Nat.repr (bam_cigar_oplen w)).length ≤ 9 := by
    apply Nat.repr_length (bam_cigar_oplen w) 9 (by norm_num)
    have : bam_cigar_oplen w < 2 ^ 28 := by
      rw [bam_cigar_oplen]
      omega
    calc bam_cigar_oplen w < 2 ^ 28 := this
      _ < 10 ^ 9 := by norm_num
  have hts : (toString (bam_cigar_oplen w)).data.length
      = (Nat.repr (bam_cigar_oplen w)).length := rfl
  simp only [hts, List.length_cons, List.length_nil]
  omega

lemma cigar_to_string_go_spec : ∀ (ops : List ℕ) (pos : ℕ) (acc : List Char)
    (bufSize : ℕ), (∀ w ∈ ops, w < 2 ^ 32) → pos = acc.length →
    acc.length < bufSize →
    ∃ k, cigar_to_string_go ops bufSize pos acc = acc ++ cigarConcat (ops.take k) ∧
      (cigar_to_string_go ops bufSize pos acc).length < bufSize := by
  intro ops
  induction ops with
  | nil =>
    intro pos acc bufSize _ _ hlt
    exact ⟨0, by simp [cigar_to_string_go, cigarConcat], by
      simpa [cigar_to_string_go] using hlt⟩
  | cons w rest ih =>
    intro pos acc bufSize hw hpos hlt
    rw [cigar_to_string_go]
    by_cases hguard : pos + 12 < bufSize
    · rw [if_pos hguard]
      have hw1 : w < 2 ^ 32 := hw w (List.mem_cons_self w rest)
      have hpl := cigar_pair_chars_length_le w hw1
      obtain ⟨k, hk, hklen⟩ := ih (pos + (cigar_pair_chars w).length)
        (acc ++ cigar_pair_chars w) bufSize
        (fun v hv => hw v (List.mem_cons_of_mem w hv))
        (by simp [hpos])
        (by simp only [List.length_append]; omega)
      refine ⟨k + 1, ?_, hklen⟩
      rw [hk, List.take_succ_cons]
      simp [cigarConcat, List.append_assoc]
    · rw [if_neg hguard]
      exact ⟨0, by simp [cigarConcat], hlt⟩

/-- C9: for any operation array (32-bit operation words) and any buffer
of size at least 1, `cigar_to_string` writes the `<length><operator>`
rendering of a prefix of the operations; the written content plus its
NUL terminator stays strictly inside the buffer (`length < bufSize`),
so a record whose full rendering exceeds the capacity is truncated at a
pair boundary rather than overflowing. -/
theorem cigar_to_string_safe (ops : List ℕ) (bufSize : ℕ)
    (hbuf : 1 ≤ bufSize) (hops : ∀ w ∈ ops, w < 2 ^ 32) :
    (∃ k, (cigar_to_string ops bufSize).data = cigarConcat (ops.take k)) ∧
    (cigar_to_string ops bufSize).data.length < bufSize := by
  obtain ⟨k, hk, hklen⟩ := cigar_to_string_go_spec ops 0 [] bufSize hops rfl
    (by simpa using hbuf)
  exact ⟨⟨k, by simp [cigar_to_string, hk]⟩, by simpa [cigar_to_string] using hklen⟩

/-- Witness for `cigar_to_string_safe`: the two operations `3M` and
`2I` rendered into a 20-byte buffer give `"3M2I"`, 4 characters, which
fits. -/
theorem cigar_to_string_safe_witness :
    (1 ≤ 20 ∧ ∀ w ∈ ([48, 33] : List ℕ), w < 2 ^ 32) ∧
    ((∃ k, (cigar_to_string [48, 33] 20).data = cigarConcat (([48, 33] : List ℕ).take k)) ∧
     (cigar_to_string [48, 33] 20).data.length < 20) ∧
    cigar_to_string [48, 33] 20 = "3M2I" :=
  ⟨⟨by decide, by decide⟩,
   cigar_to_string_safe [48, 33] 20 (by decide) (by decide),
   by decide⟩

/- ================================================================
   FILTER column (`bcf_read_function` lines 1390-1415).

   `int2id` models `bcf_hdr_int2id` (header id → filter name; the code
   substitutes "." when the lookup returns NULL); `flt` is the
   record's `d.flt` array of filter ids.  The column's validity bit is
   never cleared on this path, so the result is always a present
   (`some`) list.
   ================================================================ -/

def bcf_filter_column (int2id : ℤ → Option String) (flt : List ℤ) :
    Option (List String) :=
  some (if flt.isEmpty then ["PASS"] else flt.map (fun f => (int2id f).getD "."))

/-- C10: a record with no FILTER entries gets the non-null one-element
list `["PASS"]`; a record with `k ≥ 1` entries gets exactly its `k`
filter names in record order (provided each id resolves in the
header). -/
theorem filter_column_pass_or_names (int2id : ℤ → Option String)
    (flt : List ℤ) (names : List String)
    (h : flt.map int2id = names.map some) :
    bcf_filter_column int2id flt
      = some (if flt.isEmpty then ["PASS"] else names) ∧
    bcf_filter_column int2id [] = some ["PASS"] := by
  refine ⟨?_, rfl⟩
  rw [bcf_filter_column]
  have hmap : flt.map (fun f => (int2id f).getD ".") = names := by
    calc flt.map (fun f => (int2id f).getD ".")
        = (flt.map int2id).map (fun o => o.getD ".")
          := (List.map_map (fun o : Option String => o.getD ".") int2id flt).symm
      _ = (names.map some).map (fun o => o.getD ".") := by rw [h]
      _ = names := by
          have hco : ((fun o : Option String => o.getD ".") ∘ some)
              = (id : String → String) := by
            funext a; simp
          rw [List.map_map, hco, List.map_id]
  rw [hmap]

/-- Witness for `filter_column_pass_or_names`: one filter id resolving
to `"q10"` yields the list `["q10"]`; no ids yield `["PASS"]`. -/
theorem filter_column_pass_or_names_witness :
    (([3] : List ℤ).map (fun f => if f = 3 then some "q10" else none)
        = (["q10"] : List String).map some) ∧
    (bcf_filter_column (fun f => if f = 3 then some "q10" else none) [3]
        = some (if ([3] : List ℤ).isEmpty then ["PASS"] else ["q10"]) ∧
     bcf_filter_column (fun f => if f = 3 then some "q10" else none) [] = some ["PASS"]) :=
  ⟨by decide,
   filter_column_pass_or_names (fun f => if f = 3 then some "q10" else none)
     [3] ["q10"] (by decide)⟩

end Duckhts
